import Mathlib

/-!
# LXD container state handler and host probes

A shallow embedding of `lxd/container_state.go` (`containerStatePut`) and of
`lxd/util/sys.go` (`GetArchitectures`, `GetExecPath`).

* Go `error` values are records carrying their message; a nil error is `none`.
* The container runtime is a state of an arbitrary type `σ`; every method of a
  container is a function from that state to a possibly-nil error and the next
  state. Each call made through `invoke` is appended to a call trace.
* The local variable `err` of `containerStatePut`, which the task closures
  capture and assign, is the field `err` of `World`. The work scheduled by
  `newOperationCreate` may act on the world before `create` returns and between
  the assignment and the test of `err`.
* Go `int` and `time.Duration` are 64-bit signed integers: `Int` with explicit
  wrap-around (`wrapInt64`).
-/

namespace Lxd

/-! ## Go values -/

/-- Go `error` value, identified by its message. A nil error is `none : Option GoError`. -/
structure GoError where
  msg : String
deriving DecidableEq, Repr

/-- Call `fmt.Errorf(pre + "%s", arg)` for a string `arg`: the verb `%s` prints the
argument verbatim. -/
def fmtErrorf (pre arg : String) : GoError :=
  ⟨pre ++ arg⟩

/-- Reduction of a mathematical integer to the value a signed 64-bit machine word holds. -/
def wrapInt64 (x : Int) : Int :=
  (x + 2 ^ 63) % 2 ^ 64 - 2 ^ 63

/-- Constant `time.Second`: the number of nanoseconds in a second. -/
def time.Second : Int := 1000000000

/-- Expression `time.Duration(timeout) * time.Second`: conversion of an `int` to `int64`
followed by a wrapping 64-bit multiplication. The result is a count of nanoseconds. -/
def timeoutDuration (timeout : Int) : Int :=
  wrapInt64 (wrapInt64 timeout * time.Second)

/-! ## Container capability -/

/-- Run states of a container that the handler cares about. -/
inductive RunState
  | Stopped
  | Running
  | Frozen
deriving DecidableEq, Repr

/-- One method call on a container, as recorded in the call trace. `Shutdown` carries the
`time.Duration` argument in nanoseconds. -/
inductive Call
  | Start
  | Stop
  | Shutdown (timeout : Int)
  | Freeze
  | Unfreeze
deriving DecidableEq, Repr

/-- The `container` interface as far as `containerStatePut` uses it. Every method maps the
runtime state to the returned error (`none` for nil) and the next runtime state. -/
structure container (σ : Type) where
  Start : σ → Option GoError × σ
  Stop : σ → Option GoError × σ
  Shutdown : Int → σ → Option GoError × σ
  Freeze : σ → Option GoError × σ
  Unfreeze : σ → Option GoError × σ

/-- The method of `c` that a recorded call stands for. -/
def container.method {σ : Type} (c : container σ) : Call → σ → Option GoError × σ
  | .Start => c.Start
  | .Stop => c.Stop
  | .Shutdown t => c.Shutdown t
  | .Freeze => c.Freeze
  | .Unfreeze => c.Unfreeze

/-- What a task can touch: the container runtime, the trace of every container method call
made so far (oldest first), and the variable `err` of the handler that built the task. -/
structure World (σ : Type) where
  cstate : σ
  trace : List Call
  err : Option GoError

/-- Perform the call `k` on container `c`: run the method on the runtime state and record the
call in the trace. -/
def invoke {σ : Type} (c : container σ) (k : Call) (w : World σ) : Option GoError × World σ :=
  let r := c.method k w.cstate
  (r.1, { w with cstate := r.2, trace := w.trace ++ [k] })

/-- Assignment `err = e` to the captured variable. -/
def World.setErr {σ : Type} (w : World σ) (e : Option GoError) : World σ :=
  { w with err := e }

/-! ## Operations -/

/-- Handle of an operation of the Operation Manager. -/
structure Operation where
  id : Nat
deriving DecidableEq, Repr

/-- Operation classes; `containerStatePut` uses `newOperationClassTask`. -/
inductive operationClass
  | newOperationClassTask
  | newOperationClassWebsocket
  | newOperationClassToken
deriving DecidableEq, Repr

/-- A function `func(op *newOperation) error` acting on the world. -/
abbrev Task (σ : Type) := Operation → World σ → Option GoError × World σ

/-- Go `map[string][]string`, as an association list with distinct keys. -/
abbrev Resources := List (String × List String)

/-- Assignment `m[k] = v` on a map. -/
def mapSet (m : Resources) (k : String) (v : List String) : Resources :=
  if m.any (fun p => p.1 == k) then m.map (fun p => if p.1 == k then (k, v) else p)
  else m ++ [(k, v)]

/-- Modelled from the spec: the six positional arguments of the Operation Manager's
`create(class, lockedResources, task, onRun, onCancel, onConnect)`; the declaration of
`newOperationCreate` is not part of the excerpt. An absent (nil) argument is `none`. -/
structure CreateCall (σ : Type) where
  opClass : operationClass
  opResources : Resources
  task : Option (Task σ)
  onRun : Option (Task σ)
  onCancel : Option (Task σ)
  onConnect : Option (Task σ)

/-- Modelled from the spec: the Operation Manager behind `newOperationCreate`, which is not
part of the excerpt. `result` is what `create` returns for a class and a set of locked
resources: an Operation handle, or an error when the task cannot be scheduled. The spec asks
that the task is scheduled without blocking the caller, so the scheduled work may run, wholly
or in part, while the handler is still running. Two windows matter to the handler:
`duringCreate` is the effect the scheduled work of a call has had on the world by the time
`create` returns, and `beforeCheck` is its effect between the assignment of the results of
`create` (line 102) and the test of `err` (line 103). The identity stands for work that does
not run in that window; work that runs after the handler has returned is in neither. -/
structure OperationManager (σ : Type) where
  result : operationClass → Resources → Except GoError Operation
  duringCreate : CreateCall σ → Operation → World σ → World σ
  beforeCheck : CreateCall σ → Operation → World σ → World σ

/-- State seen by the HTTP handler: the world, and the log of calls to
`newOperationCreate` (oldest first). -/
structure HandlerState (σ : Type) where
  world : World σ
  created : List (CreateCall σ)

/-- Run an optional function of an operation. -/
def runHook {σ : Type} (f : Option (Task σ)) (op : Operation) (w : World σ) : World σ :=
  match f with
  | some t => (t op w).2
  | none => w

/-- The whole scheduled work of a call, run to its end: the task, then the `onRun` hook. -/
def runScheduled {σ : Type} (a : CreateCall σ) (op : Operation) (w : World σ) : World σ :=
  runHook a.onRun op (runHook a.task op w)

/-- Modelled from the spec: `newOperationCreate`, which is not part of the excerpt. The call
is logged. When the manager cannot schedule, the error is returned and no task runs. Otherwise
the handle is returned, and the world is as the scheduled work has left it by then. -/
def newOperationCreate {σ : Type} (mgr : OperationManager σ) (opClass : operationClass)
    (opResources : Resources) (task onRun onCancel onConnect : Option (Task σ))
    (h : HandlerState σ) : Except GoError Operation × HandlerState σ :=
  let call : CreateCall σ := ⟨opClass, opResources, task, onRun, onCancel, onConnect⟩
  let h1 : HandlerState σ := { h with created := h.created ++ [call] }
  match mgr.result opClass opResources with
  | .error e => (.error e, h1)
  | .ok op => (.ok op, { h1 with world := mgr.duringCreate call op h1.world })

/-! ## HTTP layer -/

/-- Responses built by the helpers `BadRequest`, `SmartError`, `InternalError`,
`OperationResponse` and `SyncResponse`, which are not part of the excerpt. -/
inductive Response
  | BadRequest (err : GoError)
  | SmartError (err : GoError)
  | InternalError (err : GoError)
  | OperationResponse (op : Operation)
  | SyncResponse (success : Bool) (status : String)
deriving DecidableEq, Repr

/-- The request body type: fields `Action`, `Timeout` (Go `int`) and `Force`. -/
structure containerStatePutReq where
  Action : String
  Timeout : Int
  Force : Bool
deriving DecidableEq, Repr

/-- A JSON object as the decoder sees it: each known key is present with a value or absent. -/
structure JsonBody where
  action : Option String
  timeout : Option Int
  force : Option Bool
deriving DecidableEq, Repr

/-- An HTTP request: the `name` variable of the route, and the body, which is either
malformed (the decoder's error) or a JSON object. -/
structure Request where
  name : String
  Body : Except GoError JsonBody

/-- Call `json.NewDecoder(r.Body).Decode(&raw)`: a field of `raw` is overwritten when its key
is present and keeps its value otherwise. -/
def jsonDecode (body : Except GoError JsonBody) (raw : containerStatePutReq) :
    Except GoError containerStatePutReq :=
  match body with
  | .error e => .error e
  | .ok b =>
    .ok { Action := b.action.getD raw.Action
          Timeout := b.timeout.getD raw.Timeout
          Force := b.force.getD raw.Force }

/-- The daemon, as far as the handler uses it: resolution of a container name. -/
structure Daemon (σ : Type) where
  load : String → Except GoError (container σ)

/-- Call `containerLXDLoad(d, name)`, which is not part of the excerpt: the container of that
name, or the error of the lookup. -/
def containerLXDLoad {σ : Type} (d : Daemon σ) (name : String) : Except GoError (container σ) :=
  d.load name

/-- Modelled from the spec: constant `shared.Start`, not part of the excerpt. -/
def shared.Start : String := "start"

/-- Modelled from the spec: constant `shared.Stop`, not part of the excerpt. -/
def shared.Stop : String := "stop"

/-- Modelled from the spec: constant `shared.Restart`, not part of the excerpt. -/
def shared.Restart : String := "restart"

/-- Modelled from the spec: constant `shared.Freeze`, not part of the excerpt. -/
def shared.Freeze : String := "freeze"

/-- Modelled from the spec: constant `shared.Unfreeze`, not part of the excerpt. -/
def shared.Unfreeze : String := "unfreeze"

/-! ## The task closures of `containerStatePut` -/

/-- Statement `if err = call; err != nil { return err }` followed by `rest`: the call is
made, its error is stored in the captured `err`, and a non-nil error is returned at once. -/
def assignAndCheck {σ : Type} (c : container σ) (k : Call) (w : World σ)
    (rest : World σ → Option GoError × World σ) : Option GoError × World σ :=
  let r := invoke c k w
  let w1 := r.2.setErr r.1
  match r.1 with
  | some e => (some e, w1)
  | none => rest w1

/-- Closure of case `shared.Start`. -/
def doStart {σ : Type} (c : container σ) : Task σ :=
  fun _op w => assignAndCheck c .Start w (fun w1 => (none, w1))

/-- Closure of case `shared.Stop` when `raw.Timeout == 0 || raw.Force`. -/
def doStop {σ : Type} (c : container σ) : Task σ :=
  fun _op w => assignAndCheck c .Stop w (fun w1 => (none, w1))

/-- Closure of case `shared.Stop` otherwise. -/
def doShutdown {σ : Type} (c : container σ) (raw : containerStatePutReq) : Task σ :=
  fun _op w => assignAndCheck c (.Shutdown (timeoutDuration raw.Timeout)) w (fun w1 => (none, w1))

/-- Closure of case `shared.Restart`. -/
def doRestart {σ : Type} (c : container σ) (raw : containerStatePutReq) : Task σ :=
  fun _op w =>
    if raw.Timeout = 0 ∨ raw.Force = true then
      assignAndCheck c .Stop w (fun w1 =>
        assignAndCheck c .Start w1 (fun w2 => (none, w2)))
    else
      assignAndCheck c (.Shutdown (timeoutDuration raw.Timeout)) w (fun w1 =>
        assignAndCheck c .Start w1 (fun w2 => (none, w2)))

/-- Closure of case `shared.Freeze`: `return c.Freeze()`. -/
def doFreeze {σ : Type} (c : container σ) : Task σ :=
  fun _op w => invoke c .Freeze w

/-- Closure of case `shared.Unfreeze`: `return c.Unfreeze()`. -/
def doUnfreeze {σ : Type} (c : container σ) : Task σ :=
  fun _op w => invoke c .Unfreeze w

/-- The `switch shared.ContainerAction(raw.Action)` of `containerStatePut`: the closure
assigned to `do`, or `none` in the `default` case. -/
def selectDo {σ : Type} (c : container σ) (raw : containerStatePutReq) : Option (Task σ) :=
  if raw.Action = shared.Start then some (doStart c)
  else if raw.Action = shared.Stop then
    if raw.Timeout = 0 ∨ raw.Force = true then some (doStop c)
    else some (doShutdown c raw)
  else if raw.Action = shared.Restart then some (doRestart c raw)
  else if raw.Action = shared.Freeze then some (doFreeze c)
  else if raw.Action = shared.Unfreeze then some (doUnfreeze c)
  else none

/-- Lines 102 to 107 of `containerStatePut`, once `newOperationCreate` has returned `res` for
the task `do_`. Line 102 assigns the returned error to `err`, the variable the task closures
also assign. When `create` failed no task runs and line 103 reads that error. When it
succeeded, `err` is nil after line 102, the work scheduled by `create` may run before line 103,
and line 103 then reads `err`: non-nil gives `InternalError(err)`, nil gives
`OperationResponse(op)`. -/
def checkCreated {σ : Type} (mgr : OperationManager σ) (resources : Resources) (do_ : Task σ)
    (res : Except GoError Operation × HandlerState σ) : Response × HandlerState σ :=
  match res.1 with
  | .error err =>
    (Response.InternalError err, { res.2 with world := res.2.world.setErr (some err) })
  | .ok op =>
    let call : CreateCall σ :=
      ⟨operationClass.newOperationClassTask, resources, none, some do_, none, none⟩
    let h1 : HandlerState σ := { res.2 with world := res.2.world.setErr none }
    let h2 : HandlerState σ := { h1 with world := mgr.beforeCheck call op h1.world }
    match h2.world.err with
    | some err => (Response.InternalError err, h2)
    | none => (Response.OperationResponse op, h2)

/-- Handler `containerStatePut(d, r)`. -/
def containerStatePut {σ : Type} (d : Daemon σ) (mgr : OperationManager σ) (r : Request)
    (h : HandlerState σ) : Response × HandlerState σ :=
  let name := r.name
  let raw : containerStatePutReq := { Action := "", Timeout := -1, Force := false }
  match jsonDecode r.Body raw with
  | .error err => (Response.BadRequest err, h)
  | .ok raw =>
    match containerLXDLoad d name with
    | .error err => (Response.SmartError err, { h with world := h.world.setErr (some err) })
    | .ok c =>
      let h0 : HandlerState σ := { h with world := h.world.setErr none }
      match selectDo c raw with
      | none => (Response.BadRequest (fmtErrorf "unknown action " raw.Action), h0)
      | some do_ =>
        let resources := mapSet [] "containers" [name]
        let res := newOperationCreate mgr operationClass.newOperationClassTask resources
          none (some do_) none none h0
        checkCreated mgr resources do_ res

/-! ## Host probes (`lxd/util/sys.go`) -/

/-- The three lookups of package `osarch` that `GetArchitectures` calls; the package is not
part of the excerpt, so the lookups are parameters. -/
structure osarch where
  ArchitectureGetLocal : Except GoError String
  ArchitectureId : String → Except GoError Int
  ArchitecturePersonalities : Int → Except GoError (List Int)

/-- Function `GetArchitectures`: the list of supported architectures. -/
def GetArchitectures (o : osarch) : Except GoError (List Int) :=
  let architectures : List Int := []
  match o.ArchitectureGetLocal with
  | .error err => .error err
  | .ok architectureName =>
    match o.ArchitectureId architectureName with
    | .error err => .error err
    | .ok architecture =>
      let architectures := architectures ++ [architecture]
      match o.ArchitecturePersonalities architecture with
      | .error err => .error err
      | .ok personalities =>
        .ok (personalities.foldl (fun acc personality => acc ++ [personality]) architectures)

/-- What `GetExecPath` reads from the operating system: the process environment (an unset
variable is `none`) and the outcome of reading a symbolic link. -/
structure Os where
  environ : String → Option String
  readlink : String → Except GoError String

/-- Function `os.Getenv`: the value of the variable, empty when the variable is unset. -/
def os.Getenv (o : Os) (key : String) : String :=
  (o.environ key).getD ""

/-- Function `os.Readlink`. -/
def os.Readlink (o : Os) (name : String) : Except GoError String :=
  o.readlink name

/-- Function `strings.HasSuffix`. -/
def strings.HasSuffix (s suffix : String) : Bool :=
  suffix.data.isSuffixOf s.data

/-- Function `strings.TrimSuffix`: `s` without the trailing `suffix` when it has it, `s`
itself otherwise. -/
def strings.TrimSuffix (s suffix : String) : String :=
  if strings.HasSuffix s suffix then ⟨s.data.take (s.data.length - suffix.data.length)⟩
  else s

/-- Function `GetExecPath`: the path to the current binary. -/
def GetExecPath (o : Os) : String :=
  let execPath := os.Getenv o "LXD_EXEC_PATH"
  if execPath ≠ "" then execPath
  else
    let execPath :=
      match os.Readlink o "/proc/self/exe" with
      | .error _ => "bad-exec-path"
      | .ok p => p
    strings.TrimSuffix execPath " (deleted)"

/-! ## Specification-side vocabulary and sample inputs -/

/-- The stop-phase call the specification prescribes for a request: `Stop()` when `force` is
set or `timeout` is 0, `Shutdown` with the request's timeout otherwise. -/
def stopPhaseCall (raw : containerStatePutReq) : Call :=
  if raw.Force = true ∨ raw.Timeout = 0 then Call.Stop
  else Call.Shutdown (timeoutDuration raw.Timeout)

/-- Nothing assigns `err` between lines 102 and 103: the work the manager runs in that
window for the call that registers `task` for container `name` leaves `err` as it was. -/
def errUntouchedBeforeCheck {σ : Type} (mgr : OperationManager σ) (name : String)
    (task : Task σ) : Prop :=
  ∀ (op : Operation) (w : World σ),
    (mgr.beforeCheck
      ⟨operationClass.newOperationClassTask, [("containers", [name])], none, some task,
        none, none⟩ op w).err = w.err

/-- The five recognised action strings. -/
def knownActions : List String :=
  [shared.Start, shared.Stop, shared.Restart, shared.Freeze, shared.Unfreeze]

/-- A sample container over the run state: `Stop` and `Shutdown` fail with `stopErr` when it
is given and otherwise leave the container stopped; `Start` fails with `startErr` when it is
given and otherwise leaves the container running; a failed call changes nothing. -/
def scripted (stopErr startErr : Option GoError) : container RunState where
  Start := fun s => match startErr with
    | some e => (some e, s)
    | none => (none, RunState.Running)
  Stop := fun s => match stopErr with
    | some e => (some e, s)
    | none => (none, RunState.Stopped)
  Shutdown := fun _ s => match stopErr with
    | some e => (some e, s)
    | none => (none, RunState.Stopped)
  Freeze := fun _ => (none, RunState.Frozen)
  Unfreeze := fun _ => (none, RunState.Running)

/-- A sample daemon that knows the single container `c1`. -/
def sampleDaemon (c : container RunState) : Daemon RunState where
  load := fun name => if name = "c1" then .ok c else .error ⟨"not found"⟩

/-- A sample Operation Manager that accepts every task and runs it only after the handler
has returned. -/
def sampleManager : OperationManager RunState where
  result := fun _ _ => .ok ⟨7⟩
  duringCreate := fun _ _ w => w
  beforeCheck := fun _ _ w => w

/-- A sample implementation of package `osarch` whose architecture name lookup fails. -/
def sampleOsarchUnknown : osarch where
  ArchitectureGetLocal := .error ⟨"uname failed"⟩
  ArchitectureId := fun _ => .ok 2
  ArchitecturePersonalities := fun _ => .ok [1]

/-- A sample implementation of package `osarch` whose personality lookup fails. -/
def sampleOsarch : osarch where
  ArchitectureGetLocal := .ok "x86_64"
  ArchitectureId := fun _ => .ok 2
  ArchitecturePersonalities := fun _ => .error ⟨"architecture is not supported"⟩

/-- A sample implementation of package `osarch` for a 64-bit host with one 32-bit
personality. -/
def sampleOsarch64 : osarch where
  ArchitectureGetLocal := .ok "x86_64"
  ArchitectureId := fun name => if name = "x86_64" then .ok 2 else .error ⟨"unknown"⟩
  ArchitecturePersonalities := fun a => if a = 2 then .ok [1] else .error ⟨"unsupported"⟩

/-- A sample world: a running container, no call made yet. -/
def sampleWorld : World RunState :=
  { cstate := RunState.Running, trace := [], err := none }

/-- A sample handler state: the sample world and no operation created yet. -/
def sampleState : HandlerState RunState :=
  { world := sampleWorld, created := [] }

/-- A sample request for container `c1`. -/
def sampleRequest (action : String) (timeout : Option Int) (force : Option Bool) : Request :=
  { name := "c1", Body := .ok { action := some action, timeout := timeout, force := force } }

/-! ## Shared lemmas -/

theorem mapSet_empty (k : String) (v : List String) : mapSet [] k v = [(k, v)] := by
  simp [mapSet]

/-- The handler on a request that passes validation: one call to `newOperationCreate`,
followed by the check of `err`. -/
theorem containerStatePut_valid {σ : Type} (d : Daemon σ) (mgr : OperationManager σ)
    (r : Request) (h : HandlerState σ) (raw : containerStatePutReq) (c : container σ)
    (t : Task σ)
    (hdec : jsonDecode r.Body { Action := "", Timeout := -1, Force := false } = .ok raw)
    (hload : containerLXDLoad d r.name = .ok c)
    (hsel : selectDo c raw = some t) :
    containerStatePut d mgr r h =
      checkCreated mgr [("containers", [r.name])] t
        (newOperationCreate mgr operationClass.newOperationClassTask
          [("containers", [r.name])] none (some t) none none
          { h with world := h.world.setErr none }) := by
  simp only [containerStatePut, hdec, hload, hsel, mapSet_empty]

theorem checkCreated_created {σ : Type} (mgr : OperationManager σ) (resources : Resources)
    (t : Task σ) (res : Except GoError Operation × HandlerState σ) :
    (checkCreated mgr resources t res).2.created = res.2.created := by
  unfold checkCreated
  split
  · rfl
  · dsimp only
    split <;> rfl

theorem newOperationCreate_created {σ : Type} (mgr : OperationManager σ) (k : operationClass)
    (res : Resources) (a b c d : Option (Task σ)) (h : HandlerState σ) :
    (newOperationCreate mgr k res a b c d h).2.created = h.created ++ [⟨k, res, a, b, c, d⟩] := by
  unfold newOperationCreate
  cases mgr.result k res with
  | error e => rfl
  | ok op => rfl

/-- On a validated request the log of `newOperationCreate` grows by exactly one call. -/
theorem containerStatePut_created {σ : Type} (d : Daemon σ) (mgr : OperationManager σ)
    (r : Request) (h : HandlerState σ) (raw : containerStatePutReq) (c : container σ)
    (t : Task σ)
    (hdec : jsonDecode r.Body { Action := "", Timeout := -1, Force := false } = .ok raw)
    (hload : containerLXDLoad d r.name = .ok c)
    (hsel : selectDo c raw = some t) :
    (containerStatePut d mgr r h).2.created =
      h.created ++ [⟨operationClass.newOperationClassTask, [("containers", [r.name])],
        none, some t, none, none⟩] := by
  rw [containerStatePut_valid d mgr r h raw c t hdec hload hsel, checkCreated_created]
  exact newOperationCreate_created mgr operationClass.newOperationClassTask
    [("containers", [r.name])] (none : Option (Task σ)) (some t) none none
    { h with world := h.world.setErr none }

theorem selectDo_restart {σ : Type} (c : container σ) (raw : containerStatePutReq)
    (hact : raw.Action = shared.Restart) : selectDo c raw = some (doRestart c raw) := by
  simp [selectDo, hact, shared.Restart, shared.Start, shared.Stop]

theorem assignAndCheck_fail {σ : Type} (c : container σ) (k : Call) (w : World σ)
    (rest : World σ → Option GoError × World σ) (e : GoError)
    (hf : (c.method k w.cstate).1 = some e) :
    assignAndCheck c k w rest =
      (some e, { cstate := (c.method k w.cstate).2, trace := w.trace ++ [k], err := some e }) := by
  simp [assignAndCheck, invoke, World.setErr, hf]

theorem assignAndCheck_ok {σ : Type} (c : container σ) (k : Call) (w : World σ)
    (rest : World σ → Option GoError × World σ)
    (hf : (c.method k w.cstate).1 = none) :
    assignAndCheck c k w rest =
      rest { cstate := (c.method k w.cstate).2, trace := w.trace ++ [k], err := none } := by
  simp [assignAndCheck, invoke, World.setErr, hf]

/-- The single-call closures return what the call returns and record it. -/
theorem assignAndCheck_single {σ : Type} (c : container σ) (k : Call) (w : World σ) :
    assignAndCheck c k w (fun w1 => (none, w1)) =
      ((c.method k w.cstate).1,
        { cstate := (c.method k w.cstate).2, trace := w.trace ++ [k],
          err := (c.method k w.cstate).1 }) := by
  cases hf : (c.method k w.cstate).1 with
  | none => rw [assignAndCheck_ok c k w _ hf]
  | some e => rw [assignAndCheck_fail c k w _ e hf]

theorem doRestart_eq {σ : Type} (c : container σ) (raw : containerStatePutReq)
    (op : Operation) (w : World σ) :
    doRestart c raw op w =
      assignAndCheck c (stopPhaseCall raw) w (fun w1 =>
        assignAndCheck c Call.Start w1 (fun w2 => (none, w2))) := by
  unfold doRestart stopPhaseCall
  by_cases hc : raw.Timeout = 0 ∨ raw.Force = true
  · have hc2 : raw.Force = true ∨ raw.Timeout = 0 := hc.symm
    simp only [if_pos hc, if_pos hc2]
  · have hc2 : ¬ (raw.Force = true ∨ raw.Timeout = 0) := fun x => hc x.symm
    simp only [if_neg hc, if_neg hc2]

/-! ## Claims about the lifecycle task -/

/-- C1 (restart fail-fast): for a request that decodes, resolves its container and asks for
`restart`, the handler registers exactly one task, and when the stop-phase call (`Stop()` if
force is set or timeout is 0, `Shutdown` otherwise) returns the non-nil error `e`, that task
returns exactly `e`, its call trace grows by the single stop-phase call, so `Start()` is not
called, and the runtime state is the one the stop-phase call left. -/
theorem restart_fail_fast {σ : Type} (d : Daemon σ) (mgr : OperationManager σ) (r : Request)
    (h : HandlerState σ) (raw : containerStatePutReq) (c : container σ) (op : Operation)
    (w : World σ) (e : GoError)
    (hdec : jsonDecode r.Body { Action := "", Timeout := -1, Force := false } = .ok raw)
    (hload : containerLXDLoad d r.name = .ok c)
    (hact : raw.Action = shared.Restart)
    (hfail : (c.method (stopPhaseCall raw) w.cstate).1 = some e) :
    ∃ task : Task σ,
      (containerStatePut d mgr r h).2.created =
        h.created ++ [⟨operationClass.newOperationClassTask, [("containers", [r.name])],
          none, some task, none, none⟩] ∧
      (task op w).1 = some e ∧
      (task op w).2.trace = w.trace ++ [stopPhaseCall raw] ∧
      Call.Start ∉ [stopPhaseCall raw] ∧
      (task op w).2.cstate = (c.method (stopPhaseCall raw) w.cstate).2 := by
  refine ⟨doRestart c raw,
    containerStatePut_created d mgr r h raw c _ hdec hload (selectDo_restart c raw hact), ?_⟩
  rw [doRestart_eq, assignAndCheck_fail c _ w _ e hfail]
  refine ⟨rfl, rfl, ?_, rfl⟩
  unfold stopPhaseCall
  split <;> simp

/-- Witness for C1: a forced restart of a container whose `Stop` fails. -/
theorem restart_fail_fast_witness :
    ∃ task : Task RunState,
      (containerStatePut (sampleDaemon (scripted (some ⟨"busy"⟩) none)) sampleManager
          (sampleRequest "restart" (some 30) (some true)) sampleState).2.created =
        sampleState.created ++ [⟨operationClass.newOperationClassTask, [("containers", ["c1"])],
          none, some task, none, none⟩] ∧
      (task ⟨7⟩ sampleWorld).1 = some ⟨"busy"⟩ ∧
      (task ⟨7⟩ sampleWorld).2.trace = sampleWorld.trace ++ [stopPhaseCall ⟨"restart", 30, true⟩] ∧
      Call.Start ∉ [stopPhaseCall ⟨"restart", 30, true⟩] ∧
      (task ⟨7⟩ sampleWorld).2.cstate =
        ((scripted (some ⟨"busy"⟩) none).method (stopPhaseCall ⟨"restart", 30, true⟩)
          sampleWorld.cstate).2 :=
  restart_fail_fast (sampleDaemon (scripted (some ⟨"busy"⟩) none)) sampleManager
    (sampleRequest "restart" (some 30) (some true)) sampleState ⟨"restart", 30, true⟩
    (scripted (some ⟨"busy"⟩) none) ⟨7⟩ sampleWorld ⟨"busy"⟩ rfl rfl rfl rfl

/-- C2 (restart without rollback): for a `restart` request whose stop-phase call returns nil,
the registered task returns exactly what `Start()` returns (the error `e` when it fails, nil
when it succeeds), its call trace grows by exactly the stop-phase call followed by `Start()`,
and the runtime state is the one `Start()` left. Hence, for any observation `status` of the
runtime under which a successful `Stop`/`Shutdown` leaves the container stopped and a failed
`Start` leaves the status unchanged, a failed `Start` leaves the container stopped. -/
theorem restart_no_rollback {σ : Type} (d : Daemon σ) (mgr : OperationManager σ) (r : Request)
    (h : HandlerState σ) (raw : containerStatePutReq) (c : container σ) (op : Operation)
    (w : World σ) (status : σ → RunState)
    (hdec : jsonDecode r.Body { Action := "", Timeout := -1, Force := false } = .ok raw)
    (hload : containerLXDLoad d r.name = .ok c)
    (hact : raw.Action = shared.Restart)
    (hstop : (c.method (stopPhaseCall raw) w.cstate).1 = none)
    (hStopModel : ∀ s, (c.Stop s).1 = none → status (c.Stop s).2 = RunState.Stopped)
    (hShutdownModel : ∀ t s, (c.Shutdown t s).1 = none →
      status (c.Shutdown t s).2 = RunState.Stopped)
    (hStartModel : ∀ s e, (c.Start s).1 = some e → status (c.Start s).2 = status s) :
    ∃ task : Task σ,
      (containerStatePut d mgr r h).2.created =
        h.created ++ [⟨operationClass.newOperationClassTask, [("containers", [r.name])],
          none, some task, none, none⟩] ∧
      (task op w).1 = (c.Start (c.method (stopPhaseCall raw) w.cstate).2).1 ∧
      (task op w).2.trace = w.trace ++ [stopPhaseCall raw, Call.Start] ∧
      (task op w).2.cstate = (c.Start (c.method (stopPhaseCall raw) w.cstate).2).2 ∧
      (∀ e, (c.Start (c.method (stopPhaseCall raw) w.cstate).2).1 = some e →
        (task op w).1 = some e ∧ status (task op w).2.cstate = RunState.Stopped) ∧
      ((c.Start (c.method (stopPhaseCall raw) w.cstate).2).1 = none → (task op w).1 = none) := by
  refine ⟨doRestart c raw,
    containerStatePut_created d mgr r h raw c _ hdec hload (selectDo_restart c raw hact), ?_⟩
  have hrun : doRestart c raw op w =
      ((c.Start (c.method (stopPhaseCall raw) w.cstate).2).1,
        { cstate := (c.Start (c.method (stopPhaseCall raw) w.cstate).2).2,
          trace := w.trace ++ [stopPhaseCall raw, Call.Start],
          err := (c.Start (c.method (stopPhaseCall raw) w.cstate).2).1 }) := by
    rw [doRestart_eq, assignAndCheck_ok c _ w _ hstop, assignAndCheck_single]
    simp [container.method]
  have hstopped : status (c.method (stopPhaseCall raw) w.cstate).2 = RunState.Stopped := by
    unfold stopPhaseCall at hstop ⊢
    by_cases hc : raw.Force = true ∨ raw.Timeout = 0
    · rw [if_pos hc] at hstop ⊢
      exact hStopModel _ hstop
    · rw [if_neg hc] at hstop ⊢
      exact hShutdownModel _ _ hstop
  rw [hrun]
  refine ⟨rfl, rfl, rfl, ?_, fun hn => hn⟩
  intro e he
  exact ⟨he, (hStartModel _ e he).trans hstopped⟩

/-- Witness for C2: a graceful restart of a container that stops but whose `Start` fails. -/
theorem restart_no_rollback_witness :
    ∃ task : Task RunState,
      (containerStatePut (sampleDaemon (scripted none (some ⟨"no space"⟩))) sampleManager
          (sampleRequest "restart" (some 30) none) sampleState).2.created =
        sampleState.created ++ [⟨operationClass.newOperationClassTask, [("containers", ["c1"])],
          none, some task, none, none⟩] ∧
      (task ⟨7⟩ sampleWorld).1 = some ⟨"no space"⟩ ∧
      (task ⟨7⟩ sampleWorld).2.trace = [Call.Shutdown 30000000000, Call.Start] ∧
      (task ⟨7⟩ sampleWorld).2.cstate = RunState.Stopped ∧
      (∀ e, some (GoError.mk "no space") = some e →
        (task ⟨7⟩ sampleWorld).1 = some e ∧ id (task ⟨7⟩ sampleWorld).2.cstate = RunState.Stopped) ∧
      (some (GoError.mk "no space") = none → (task ⟨7⟩ sampleWorld).1 = none) :=
  restart_no_rollback (sampleDaemon (scripted none (some ⟨"no space"⟩))) sampleManager
    (sampleRequest "restart" (some 30) none) sampleState ⟨"restart", 30, false⟩
    (scripted none (some ⟨"no space"⟩)) ⟨7⟩ sampleWorld id rfl rfl rfl rfl
    (fun _ _ => rfl) (fun _ _ _ => rfl) (fun _ _ _ => rfl)

theorem selectDo_stop {σ : Type} (c : container σ) (raw : containerStatePutReq)
    (hact : raw.Action = shared.Stop) :
    selectDo c raw =
      if raw.Timeout = 0 ∨ raw.Force = true then some (doStop c) else some (doShutdown c raw) := by
  simp [selectDo, hact, shared.Start, shared.Stop]

/-- C3 (stop dispatch): for a `stop` request the registered task makes exactly one call and
returns that call's error unchanged. The call is `Stop()` exactly when force is set or timeout
is 0, and `Shutdown` with the request's timeout otherwise. A body that omits both `timeout`
and `force` takes the `Shutdown` path with the default timeout -1. -/
theorem stop_dispatch {σ : Type} (d : Daemon σ) (mgr : OperationManager σ) (r : Request)
    (h : HandlerState σ) (raw : containerStatePutReq) (c : container σ) (op : Operation)
    (w : World σ)
    (hdec : jsonDecode r.Body { Action := "", Timeout := -1, Force := false } = .ok raw)
    (hload : containerLXDLoad d r.name = .ok c)
    (hact : raw.Action = shared.Stop) :
    ∃ (task : Task σ) (k : Call),
      (containerStatePut d mgr r h).2.created =
        h.created ++ [⟨operationClass.newOperationClassTask, [("containers", [r.name])],
          none, some task, none, none⟩] ∧
      (task op w).1 = (c.method k w.cstate).1 ∧
      (task op w).2.trace = w.trace ++ [k] ∧
      (task op w).2.cstate = (c.method k w.cstate).2 ∧
      (k = Call.Stop ↔ (raw.Force = true ∨ raw.Timeout = 0)) ∧
      (¬ (raw.Force = true ∨ raw.Timeout = 0) → k = Call.Shutdown (timeoutDuration raw.Timeout)) ∧
      (∀ b : JsonBody, r.Body = .ok b → b.timeout = none → b.force = none →
        k = Call.Shutdown (-1000000000)) := by
  have hsel := selectDo_stop c raw hact
  have hdefault : ∀ b : JsonBody, r.Body = .ok b → b.timeout = none → b.force = none →
      raw.Timeout = -1 ∧ raw.Force = false := by
    intro b hb ht hf
    rw [hb] at hdec
    simp only [jsonDecode, ht, hf, Option.getD_none, Except.ok.injEq] at hdec
    subst hdec
    exact ⟨rfl, rfl⟩
  by_cases hc : raw.Timeout = 0 ∨ raw.Force = true
  · rw [if_pos hc] at hsel
    refine ⟨doStop c, Call.Stop,
      containerStatePut_created d mgr r h raw c _ hdec hload hsel, ?_⟩
    have hrun : doStop c op w = _ := assignAndCheck_single c Call.Stop w
    rw [hrun]
    refine ⟨rfl, rfl, rfl, ⟨fun _ => hc.symm, fun _ => rfl⟩, fun hn => absurd hc.symm hn, ?_⟩
    intro b hb ht hf
    obtain ⟨h1, h2⟩ := hdefault b hb ht hf
    rw [h1, h2] at hc
    simp at hc
  · rw [if_neg hc] at hsel
    refine ⟨doShutdown c raw, Call.Shutdown (timeoutDuration raw.Timeout),
      containerStatePut_created d mgr r h raw c _ hdec hload hsel, ?_⟩
    have hrun : doShutdown c raw op w = _ :=
      assignAndCheck_single c (Call.Shutdown (timeoutDuration raw.Timeout)) w
    rw [hrun]
    refine ⟨rfl, rfl, rfl, ⟨fun hk => Call.noConfusion hk, fun hx => absurd hx.symm hc⟩,
      fun _ => rfl, ?_⟩
    intro b hb ht hf
    obtain ⟨h1, _⟩ := hdefault b hb ht hf
    rw [h1]
    decide

/-- Witness for C3: a `stop` request whose body gives only the action. -/
theorem stop_dispatch_witness :
    ∃ (task : Task RunState) (k : Call),
      (containerStatePut (sampleDaemon (scripted (some ⟨"busy"⟩) none)) sampleManager
          (sampleRequest "stop" none none) sampleState).2.created =
        sampleState.created ++ [⟨operationClass.newOperationClassTask, [("containers", ["c1"])],
          none, some task, none, none⟩] ∧
      (task ⟨7⟩ sampleWorld).1 =
        ((scripted (some ⟨"busy"⟩) none).method k sampleWorld.cstate).1 ∧
      (task ⟨7⟩ sampleWorld).2.trace = sampleWorld.trace ++ [k] ∧
      (task ⟨7⟩ sampleWorld).2.cstate =
        ((scripted (some ⟨"busy"⟩) none).method k sampleWorld.cstate).2 ∧
      (k = Call.Stop ↔ (false = true ∨ (-1 : Int) = 0)) ∧
      (¬ (false = true ∨ (-1 : Int) = 0) → k = Call.Shutdown (timeoutDuration (-1))) ∧
      (∀ b : JsonBody, (sampleRequest "stop" none none).Body = .ok b → b.timeout = none →
        b.force = none → k = Call.Shutdown (-1000000000)) :=
  stop_dispatch (sampleDaemon (scripted (some ⟨"busy"⟩) none)) sampleManager
    (sampleRequest "stop" none none) sampleState ⟨"stop", -1, false⟩
    (scripted (some ⟨"busy"⟩) none) ⟨7⟩ sampleWorld rfl rfl rfl

theorem selectDo_start {σ : Type} (c : container σ) (raw : containerStatePutReq)
    (hact : raw.Action = shared.Start) : selectDo c raw = some (doStart c) := by
  simp [selectDo, hact]

theorem selectDo_freeze {σ : Type} (c : container σ) (raw : containerStatePutReq)
    (hact : raw.Action = shared.Freeze) : selectDo c raw = some (doFreeze c) := by
  simp [selectDo, hact, shared.Restart, shared.Start, shared.Stop, shared.Freeze]

theorem selectDo_unfreeze {σ : Type} (c : container σ) (raw : containerStatePutReq)
    (hact : raw.Action = shared.Unfreeze) : selectDo c raw = some (doUnfreeze c) := by
  simp [selectDo, hact, shared.Restart, shared.Start, shared.Stop, shared.Freeze,
    shared.Unfreeze]

/-- C5 (single-step actions): for a request whose action is `start`, `freeze` or `unfreeze`,
whatever its timeout and force, the registered task makes exactly one call, namely `Start()`,
`Freeze()` or `Unfreeze()` respectively, and returns that call's result verbatim. -/
theorem single_step_actions {σ : Type} (d : Daemon σ) (mgr : OperationManager σ) (r : Request)
    (h : HandlerState σ) (raw : containerStatePutReq) (c : container σ) (op : Operation)
    (w : World σ) (k : Call)
    (hdec : jsonDecode r.Body { Action := "", Timeout := -1, Force := false } = .ok raw)
    (hload : containerLXDLoad d r.name = .ok c)
    (hact : (raw.Action = shared.Start ∧ k = Call.Start) ∨
      (raw.Action = shared.Freeze ∧ k = Call.Freeze) ∨
      (raw.Action = shared.Unfreeze ∧ k = Call.Unfreeze)) :
    ∃ task : Task σ,
      (containerStatePut d mgr r h).2.created =
        h.created ++ [⟨operationClass.newOperationClassTask, [("containers", [r.name])],
          none, some task, none, none⟩] ∧
      (task op w).1 = (c.method k w.cstate).1 ∧
      (task op w).2.trace = w.trace ++ [k] ∧
      (task op w).2.cstate = (c.method k w.cstate).2 := by
  rcases hact with ⟨ha, hk⟩ | ⟨ha, hk⟩ | ⟨ha, hk⟩
  · subst hk
    refine ⟨doStart c,
      containerStatePut_created d mgr r h raw c _ hdec hload (selectDo_start c raw ha), ?_⟩
    have hrun : doStart c op w = _ := assignAndCheck_single c Call.Start w
    rw [hrun]
    exact ⟨rfl, rfl, rfl⟩
  · subst hk
    exact ⟨doFreeze c,
      containerStatePut_created d mgr r h raw c _ hdec hload (selectDo_freeze c raw ha),
      rfl, rfl, rfl⟩
  · subst hk
    exact ⟨doUnfreeze c,
      containerStatePut_created d mgr r h raw c _ hdec hload (selectDo_unfreeze c raw ha),
      rfl, rfl, rfl⟩

/-- Witness for C5: a `start` request that carries a timeout and the force flag, on a
container whose `Start` fails. -/
theorem single_step_actions_witness :
    ∃ task : Task RunState,
      (containerStatePut (sampleDaemon (scripted none (some ⟨"no space"⟩))) sampleManager
          (sampleRequest "start" (some 0) (some true)) sampleState).2.created =
        sampleState.created ++ [⟨operationClass.newOperationClassTask, [("containers", ["c1"])],
          none, some task, none, none⟩] ∧
      (task ⟨7⟩ sampleWorld).1 = some ⟨"no space"⟩ ∧
      (task ⟨7⟩ sampleWorld).2.trace = [Call.Start] ∧
      (task ⟨7⟩ sampleWorld).2.cstate = RunState.Running :=
  single_step_actions (sampleDaemon (scripted none (some ⟨"no space"⟩))) sampleManager
    (sampleRequest "start" (some 0) (some true)) sampleState ⟨"start", 0, true⟩
    (scripted none (some ⟨"no space"⟩)) ⟨7⟩ sampleWorld Call.Start rfl rfl
    (Or.inl ⟨rfl, rfl⟩)

/-! ## Claims about the handler -/

theorem selectDo_isSome_iff {σ : Type} (c : container σ) (raw : containerStatePutReq) :
    (∃ t, selectDo c raw = some t) ↔ raw.Action ∈ knownActions := by
  unfold selectDo knownActions
  by_cases h1 : raw.Action = shared.Start
  · simp [h1]
  by_cases h2 : raw.Action = shared.Stop
  · by_cases hc : raw.Timeout = 0 ∨ raw.Force = true <;> simp [h2, hc, shared.Start, shared.Stop]
  by_cases h3 : raw.Action = shared.Restart
  · simp [h3, shared.Start, shared.Stop, shared.Restart]
  by_cases h4 : raw.Action = shared.Freeze
  · simp [h4, shared.Start, shared.Stop, shared.Restart, shared.Freeze]
  by_cases h5 : raw.Action = shared.Unfreeze
  · simp [h5, shared.Start, shared.Stop, shared.Restart, shared.Freeze, shared.Unfreeze]
  simp [h1, h2, h3, h4, h5]

theorem selectDo_none {σ : Type} (c : container σ) (raw : containerStatePutReq)
    (hact : raw.Action ∉ knownActions) : selectDo c raw = none := by
  cases hs : selectDo c raw with
  | none => rfl
  | some t => exact absurd ((selectDo_isSome_iff c raw).mp ⟨t, hs⟩) hact

theorem append_singleton_ne {α : Type} (l : List α) (a : α) : l ++ [a] ≠ l := by
  intro hEq
  have hlen := congrArg List.length hEq
  simp at hlen

/-- C4 (validation short-circuits): the handler calls `newOperationCreate` if and only if the
body decodes, the container name resolves and the action is one of the five known ones.
Otherwise it answers, in this order of precedence, `BadRequest` of the decode error,
`SmartError` of the load error, or `BadRequest` of an error whose message is
"unknown action " followed by the action string; in these three cases no operation is created,
no container call is recorded and the runtime state is untouched. -/
theorem validation_short_circuits {σ : Type} (d : Daemon σ) (mgr : OperationManager σ)
    (r : Request) (h : HandlerState σ) :
    ((∃ a, (containerStatePut d mgr r h).2.created = h.created ++ [a]) ↔
      ∃ raw c, jsonDecode r.Body { Action := "", Timeout := -1, Force := false } = .ok raw ∧
        containerLXDLoad d r.name = .ok c ∧ raw.Action ∈ knownActions) ∧
    (∀ e, jsonDecode r.Body { Action := "", Timeout := -1, Force := false } = .error e →
      (containerStatePut d mgr r h).1 = Response.BadRequest e ∧
      (containerStatePut d mgr r h).2.created = h.created ∧
      (containerStatePut d mgr r h).2.world.trace = h.world.trace ∧
      (containerStatePut d mgr r h).2.world.cstate = h.world.cstate) ∧
    (∀ raw e, jsonDecode r.Body { Action := "", Timeout := -1, Force := false } = .ok raw →
      containerLXDLoad d r.name = .error e →
      (containerStatePut d mgr r h).1 = Response.SmartError e ∧
      (containerStatePut d mgr r h).2.created = h.created ∧
      (containerStatePut d mgr r h).2.world.trace = h.world.trace ∧
      (containerStatePut d mgr r h).2.world.cstate = h.world.cstate) ∧
    (∀ raw c, jsonDecode r.Body { Action := "", Timeout := -1, Force := false } = .ok raw →
      containerLXDLoad d r.name = .ok c → raw.Action ∉ knownActions →
      (containerStatePut d mgr r h).1 = Response.BadRequest ⟨"unknown action " ++ raw.Action⟩ ∧
      (containerStatePut d mgr r h).2.created = h.created ∧
      (containerStatePut d mgr r h).2.world.trace = h.world.trace ∧
      (containerStatePut d mgr r h).2.world.cstate = h.world.cstate) := by
  have hA : ∀ e, jsonDecode r.Body { Action := "", Timeout := -1, Force := false } = .error e →
      containerStatePut d mgr r h = (Response.BadRequest e, h) := by
    intro e he
    simp only [containerStatePut, he]
  have hB : ∀ raw e, jsonDecode r.Body { Action := "", Timeout := -1, Force := false } = .ok raw →
      containerLXDLoad d r.name = .error e →
      containerStatePut d mgr r h =
        (Response.SmartError e, { h with world := h.world.setErr (some e) }) := by
    intro raw e hr he
    simp only [containerStatePut, hr, he]
  have hC : ∀ raw c, jsonDecode r.Body { Action := "", Timeout := -1, Force := false } = .ok raw →
      containerLXDLoad d r.name = .ok c → raw.Action ∉ knownActions →
      containerStatePut d mgr r h =
        (Response.BadRequest ⟨"unknown action " ++ raw.Action⟩,
          { h with world := h.world.setErr none }) := by
    intro raw c hr hc hn
    simp only [containerStatePut, hr, hc, selectDo_none c raw hn, fmtErrorf]
  refine ⟨⟨?_, ?_⟩, ?_, ?_, ?_⟩
  · rintro ⟨a, ha⟩
    cases hdec : jsonDecode r.Body { Action := "", Timeout := -1, Force := false } with
    | error e =>
      rw [hA e hdec] at ha
      exact absurd ha.symm (append_singleton_ne _ _)
    | ok raw =>
      cases hload : containerLXDLoad d r.name with
      | error e =>
        rw [hB raw e hdec hload] at ha
        exact absurd ha.symm (append_singleton_ne _ _)
      | ok c =>
        by_cases hk : raw.Action ∈ knownActions
        · exact ⟨raw, c, rfl, rfl, hk⟩
        · rw [hC raw c hdec hload hk] at ha
          exact absurd ha.symm (append_singleton_ne _ _)
  · rintro ⟨raw, c, hdec, hload, hk⟩
    obtain ⟨t, ht⟩ := (selectDo_isSome_iff c raw).mpr hk
    exact ⟨_, containerStatePut_created d mgr r h raw c t hdec hload ht⟩
  · intro e he
    rw [hA e he]
    exact ⟨rfl, rfl, rfl, rfl⟩
  · intro raw e hr he
    rw [hB raw e hr he]
    exact ⟨rfl, rfl, rfl, rfl⟩
  · intro raw c hr hc hn
    rw [hC raw c hr hc hn]
    exact ⟨rfl, rfl, rfl, rfl⟩

/-- Counterexample for C6 as stated: for a `start` request on the sample daemon, the logged
call does not carry the task in the third position with the fourth, fifth and sixth absent. -/
theorem create_arguments_counterexample :
    ¬ ∃ task : Task RunState,
      (containerStatePut (sampleDaemon (scripted none none)) sampleManager
          (sampleRequest "start" none none) sampleState).2.created =
        [⟨operationClass.newOperationClassTask, [("containers", ["c1"])],
          some task, none, none, none⟩] := by
  rintro ⟨task, ht⟩
  have hc := containerStatePut_created (sampleDaemon (scripted none none)) sampleManager
    (sampleRequest "start" none none) sampleState ⟨"start", -1, false⟩ (scripted none none)
    (doStart (scripted none none)) rfl rfl (selectDo_start _ _ rfl)
  rw [hc] at ht
  simp [sampleState] at ht

/-- C6 (operation registration, amended): for a request that passes validation the handler
calls `newOperationCreate` exactly once, with the class `newOperationClassTask`, the resources
map with the single key "containers" bound to the one-element list of the container name, an
absent third argument, the compiled lifecycle task as fourth argument (the `onRun` position),
and an absent fifth and sixth argument. -/
theorem create_arguments {σ : Type} (d : Daemon σ) (mgr : OperationManager σ) (r : Request)
    (h : HandlerState σ) (raw : containerStatePutReq) (c : container σ)
    (hdec : jsonDecode r.Body { Action := "", Timeout := -1, Force := false } = .ok raw)
    (hload : containerLXDLoad d r.name = .ok c)
    (hact : raw.Action ∈ knownActions) :
    ∃ task : Task σ, selectDo c raw = some task ∧
      (containerStatePut d mgr r h).2.created =
        h.created ++ [{ opClass := operationClass.newOperationClassTask
                        opResources := [("containers", [r.name])]
                        task := none
                        onRun := some task
                        onCancel := none
                        onConnect := none }] := by
  obtain ⟨t, ht⟩ := (selectDo_isSome_iff c raw).mpr hact
  exact ⟨t, ht, containerStatePut_created d mgr r h raw c t hdec hload ht⟩

/-- Witness for C6 (amended): a `freeze` request on the sample daemon. -/
theorem create_arguments_witness :
    ∃ task : Task RunState,
      selectDo (scripted none none) ⟨"freeze", -1, false⟩ = some task ∧
      (containerStatePut (sampleDaemon (scripted none none)) sampleManager
          (sampleRequest "freeze" none none) sampleState).2.created =
        sampleState.created ++ [{ opClass := operationClass.newOperationClassTask
                                  opResources := [("containers", ["c1"])]
                                  task := none
                                  onRun := some task
                                  onCancel := none
                                  onConnect := none }] :=
  create_arguments (sampleDaemon (scripted none none)) sampleManager
    (sampleRequest "freeze" none none) sampleState ⟨"freeze", -1, false⟩ (scripted none none)
    rfl rfl (by decide)

/-- A `freeze` or `unfreeze` task never assigns `err`, so a manager that runs the scheduled
work between lines 102 and 103 leaves `err` untouched for it. -/
theorem errUntouched_freeze_unfreeze {σ : Type} (mgr : OperationManager σ) (name : String)
    (c : container σ) (raw : containerStatePutReq) (t : Task σ)
    (hmgr : mgr.beforeCheck = runScheduled)
    (hact : raw.Action = shared.Freeze ∨ raw.Action = shared.Unfreeze)
    (hsel : selectDo c raw = some t) :
    errUntouchedBeforeCheck mgr name t := by
  intro op w
  rw [hmgr]
  rcases hact with ha | ha
  · rw [selectDo_freeze c raw ha] at hsel
    cases hsel
    rfl
  · rw [selectDo_unfreeze c raw ha] at hsel
    cases hsel
    rfl

theorem TrimSuffix_append (q s : String) : strings.TrimSuffix (q ++ s) s = q := by
  have hs : strings.HasSuffix (q ++ s) s = true := by
    simp [strings.HasSuffix]
  simp [strings.TrimSuffix, hs]

theorem TrimSuffix_of_not_suffix (p s : String) (hn : ¬ ∃ q, p = q ++ s) :
    strings.TrimSuffix p s = p := by
  have hs : strings.HasSuffix p s = false := by
    cases hb : strings.HasSuffix p s with
    | false => rfl
    | true =>
      exfalso
      apply hn
      simp only [strings.HasSuffix, List.isSuffixOf_iff_suffix] at hb
      obtain ⟨l, hl⟩ := hb
      refine ⟨⟨l⟩, ?_⟩
      apply String.ext
      simp [hl]
  simp [strings.TrimSuffix, hs]

/-- C8 (exec path): when `LXD_EXEC_PATH` is set to a non-empty value, `GetExecPath` returns
that value unchanged. When it is unset or empty and reading `/proc/self/exe` gives `p`, the
result is `p` without one trailing " (deleted)" when `p` ends with it and `p` otherwise. When
the read fails, the result is "bad-exec-path". -/
theorem GetExecPath_cases (o : Os) :
    (∀ v, o.environ "LXD_EXEC_PATH" = some v → v ≠ "" → GetExecPath o = v) ∧
    (o.environ "LXD_EXEC_PATH" = none ∨ o.environ "LXD_EXEC_PATH" = some "" →
      (∀ q, os.Readlink o "/proc/self/exe" = .ok (q ++ " (deleted)") → GetExecPath o = q) ∧
      (∀ p, os.Readlink o "/proc/self/exe" = .ok p → (¬ ∃ q, p = q ++ " (deleted)") →
        GetExecPath o = p) ∧
      (∀ e, os.Readlink o "/proc/self/exe" = .error e → GetExecPath o = "bad-exec-path")) := by
  refine ⟨?_, ?_⟩
  · intro v hv hne
    simp [GetExecPath, os.Getenv, hv, hne]
  · intro henv
    have hget : os.Getenv o "LXD_EXEC_PATH" = "" := by
      rcases henv with h0 | h0 <;> simp [os.Getenv, h0]
    refine ⟨?_, ?_, ?_⟩
    · intro q hq
      simp only [GetExecPath, hget, hq, ne_eq, not_true_eq_false, if_false]
      exact TrimSuffix_append q " (deleted)"
    · intro p hp hn
      simp only [GetExecPath, hget, hp, ne_eq, not_true_eq_false, if_false]
      exact TrimSuffix_of_not_suffix p " (deleted)" hn
    · intro e he
      simp only [GetExecPath, hget, he, ne_eq, not_true_eq_false, if_false]
      decide

/-- Counterexample for C9 as stated: the architecture name lookup and the name-to-id lookup
both succeed, yet `GetArchitectures` returns an error, because the personality lookup fails. -/
theorem GetArchitectures_counterexample :
    sampleOsarch.ArchitectureGetLocal = .ok "x86_64" ∧
    sampleOsarch.ArchitectureId "x86_64" = .ok 2 ∧
    GetArchitectures sampleOsarch = .error ⟨"architecture is not supported"⟩ ∧
    ¬ ∃ l, GetArchitectures sampleOsarch = .ok l := by
  refine ⟨rfl, rfl, rfl, ?_⟩
  rintro ⟨l, hl⟩
  cases hl

theorem foldl_append_singleton (ps acc : List Int) :
    ps.foldl (fun acc personality => acc ++ [personality]) acc = acc ++ ps := by
  induction ps generalizing acc with
  | nil => simp
  | cons p ps ih => simp [ih]

/-- C9 (architectures, amended): `GetArchitectures` fails exactly when one of its three
lookups fails, and then with the error of that lookup: the architecture name lookup, the
name-to-id lookup of that name, or the personality lookup of the resulting id. When the name
lookup and the name-to-id lookup succeed with id `a` and the personality lookup of `a` gives
`ps`, it returns without error the non-empty list whose first element is `a` and whose
remaining elements are `ps` in order. -/
theorem GetArchitectures_cases (o : osarch) :
    (∀ e, o.ArchitectureGetLocal = .error e → GetArchitectures o = .error e) ∧
    (∀ name e, o.ArchitectureGetLocal = .ok name → o.ArchitectureId name = .error e →
      GetArchitectures o = .error e) ∧
    (∀ name a e, o.ArchitectureGetLocal = .ok name → o.ArchitectureId name = .ok a →
      o.ArchitecturePersonalities a = .error e → GetArchitectures o = .error e) ∧
    (∀ name a ps, o.ArchitectureGetLocal = .ok name → o.ArchitectureId name = .ok a →
      o.ArchitecturePersonalities a = .ok ps →
      GetArchitectures o = .ok (a :: ps) ∧ (a :: ps) ≠ [] ∧ (a :: ps).head? = some a ∧
        (a :: ps).tail = ps) ∧
    ((∃ e, GetArchitectures o = .error e) ↔
      ((∃ e, o.ArchitectureGetLocal = .error e) ∨
       (∃ name e, o.ArchitectureGetLocal = .ok name ∧ o.ArchitectureId name = .error e) ∨
       (∃ name a e, o.ArchitectureGetLocal = .ok name ∧ o.ArchitectureId name = .ok a ∧
          o.ArchitecturePersonalities a = .error e))) := by
  have h1 : ∀ e, o.ArchitectureGetLocal = .error e → GetArchitectures o = .error e := by
    intro e he
    simp [GetArchitectures, he]
  have h2 : ∀ name e, o.ArchitectureGetLocal = .ok name → o.ArchitectureId name = .error e →
      GetArchitectures o = .error e := by
    intro name e hn he
    simp [GetArchitectures, hn, he]
  have h3 : ∀ name a e, o.ArchitectureGetLocal = .ok name → o.ArchitectureId name = .ok a →
      o.ArchitecturePersonalities a = .error e → GetArchitectures o = .error e := by
    intro name a e hn ha he
    simp [GetArchitectures, hn, ha, he]
  have h4 : ∀ name a ps, o.ArchitectureGetLocal = .ok name → o.ArchitectureId name = .ok a →
      o.ArchitecturePersonalities a = .ok ps → GetArchitectures o = .ok (a :: ps) := by
    intro name a ps hn ha hps
    simp [GetArchitectures, hn, ha, hps, foldl_append_singleton]
  refine ⟨h1, h2, h3, fun name a ps hn ha hps => ⟨h4 name a ps hn ha hps, by simp, rfl, rfl⟩,
    ⟨?_, ?_⟩⟩
  · rintro ⟨e, he⟩
    cases hn : o.ArchitectureGetLocal with
    | error e1 => exact Or.inl ⟨e1, rfl⟩
    | ok name =>
      cases ha : o.ArchitectureId name with
      | error e2 => exact Or.inr (Or.inl ⟨name, e2, rfl, ha⟩)
      | ok a =>
        cases hps : o.ArchitecturePersonalities a with
        | error e3 => exact Or.inr (Or.inr ⟨name, a, e3, rfl, ha, hps⟩)
        | ok ps =>
          rw [h4 name a ps hn ha hps] at he
          cases he
  · rintro (⟨e, he⟩ | ⟨name, e, hn, he⟩ | ⟨name, a, e, hn, ha, he⟩)
    · exact ⟨e, h1 e he⟩
    · exact ⟨e, h2 name e hn he⟩
    · exact ⟨e, h3 name a e hn ha he⟩

/-- Witness for C9 (amended): a 64-bit host with one 32-bit personality gives the list
`[2, 1]`, and a host whose architecture name lookup fails gives that error. -/
theorem GetArchitectures_cases_witness :
    GetArchitectures sampleOsarch64 = .ok [2, 1] ∧
    GetArchitectures sampleOsarchUnknown = .error ⟨"uname failed"⟩ :=
  ⟨((GetArchitectures_cases sampleOsarch64).2.2.2.1 "x86_64" 2 [1] rfl rfl rfl).1,
    (GetArchitectures_cases sampleOsarchUnknown).1 ⟨"uname failed"⟩ rfl⟩

/-! ## The duration handed to `Shutdown` -/

/-- Within 9223372036 seconds either way the duration is the exact number of nanoseconds. -/
theorem timeoutDuration_exact (t : Int) (hlo : -9223372036 ≤ t) (hhi : t ≤ 9223372036) :
    timeoutDuration t = t * 1000000000 := by
  unfold timeoutDuration wrapInt64 time.Second
  omega

/-- Counterexample for C10 as stated: a `stop` request with `timeout` 36028797018963968
(2^55, a signed 64-bit value) and no force, on the sample daemon, hands `Shutdown` a duration
of 0 nanoseconds, and the same request with `timeout` 9223372037 hands it a negative duration,
while the exact products with 1000000000 are positive; a `restart` request with the first
timeout does the same. -/
theorem graceful_timeout_counterexample :
    (-(2 : Int) ^ 63 ≤ 36028797018963968 ∧ (36028797018963968 : Int) < 2 ^ 63) ∧
    (∃ task : Task RunState,
      (containerStatePut (sampleDaemon (scripted none none)) sampleManager
          (sampleRequest "stop" (some 36028797018963968) (some false)) sampleState).2.created =
        [⟨operationClass.newOperationClassTask, [("containers", ["c1"])],
          none, some task, none, none⟩] ∧
      (task ⟨7⟩ sampleWorld).2.trace = [Call.Shutdown 0]) ∧
    (∃ task : Task RunState,
      (containerStatePut (sampleDaemon (scripted none none)) sampleManager
          (sampleRequest "stop" (some 9223372037) (some false)) sampleState).2.created =
        [⟨operationClass.newOperationClassTask, [("containers", ["c1"])],
          none, some task, none, none⟩] ∧
      (task ⟨7⟩ sampleWorld).2.trace = [Call.Shutdown (-9223372036709551616)]) ∧
    (∃ task : Task RunState,
      (containerStatePut (sampleDaemon (scripted none none)) sampleManager
          (sampleRequest "restart" (some 36028797018963968) (some false)) sampleState).2.created =
        [⟨operationClass.newOperationClassTask, [("containers", ["c1"])],
          none, some task, none, none⟩] ∧
      (task ⟨7⟩ sampleWorld).2.trace = [Call.Shutdown 0, Call.Start]) ∧
    (0 : Int) < 36028797018963968 * 1000000000 ∧ (0 : Int) < 9223372037 * 1000000000 := by
  refine ⟨by decide, ⟨doShutdown (scripted none none) ⟨"stop", 36028797018963968, false⟩, ?_, ?_⟩,
    ⟨doShutdown (scripted none none) ⟨"stop", 9223372037, false⟩, ?_, ?_⟩,
    ⟨doRestart (scripted none none) ⟨"restart", 36028797018963968, false⟩, ?_, ?_⟩,
    by decide, by decide⟩
  · exact containerStatePut_created _ _ _ _ ⟨"stop", 36028797018963968, false⟩
      (scripted none none) _ rfl rfl rfl
  · decide
  · exact containerStatePut_created _ _ _ _ ⟨"stop", 9223372037, false⟩
      (scripted none none) _ rfl rfl rfl
  · decide
  · exact containerStatePut_created _ _ _ _ ⟨"restart", 36028797018963968, false⟩
      (scripted none none) _ rfl rfl rfl
  · decide


theorem stopPhaseCall_graceful (raw : containerStatePutReq) (hforce : raw.Force = false)
    (hne : raw.Timeout ≠ 0) (hlo : -9223372036 ≤ raw.Timeout) (hhi : raw.Timeout ≤ 9223372036) :
    stopPhaseCall raw = Call.Shutdown (raw.Timeout * 1000000000) := by
  unfold stopPhaseCall
  rw [if_neg (by simp [hforce, hne]), timeoutDuration_exact raw.Timeout hlo hhi]

/-- C10 (graceful timeout, amended): for a `stop` or `restart` request with force unset and a
timeout `t` other than 0 with -9223372036 ≤ t ≤ 9223372036, the registered task calls
`Shutdown` first, with a duration of exactly `t * 1000000000` nanoseconds, and any call after
it is `Start()`; the duration has the sign of `t`. -/
theorem graceful_timeout_exact {σ : Type} (d : Daemon σ) (mgr : OperationManager σ)
    (r : Request) (h : HandlerState σ) (raw : containerStatePutReq) (c : container σ)
    (op : Operation) (w : World σ)
    (hdec : jsonDecode r.Body { Action := "", Timeout := -1, Force := false } = .ok raw)
    (hload : containerLXDLoad d r.name = .ok c)
    (hact : raw.Action = shared.Stop ∨ raw.Action = shared.Restart)
    (hforce : raw.Force = false) (hne : raw.Timeout ≠ 0)
    (hlo : -9223372036 ≤ raw.Timeout) (hhi : raw.Timeout ≤ 9223372036) :
    ∃ (task : Task σ) (rest : List Call),
      (containerStatePut d mgr r h).2.created =
        h.created ++ [⟨operationClass.newOperationClassTask, [("containers", [r.name])],
          none, some task, none, none⟩] ∧
      (task op w).2.trace = w.trace ++ Call.Shutdown (raw.Timeout * 1000000000) :: rest ∧
      (∀ k ∈ rest, k = Call.Start) ∧
      (0 < raw.Timeout → 0 < raw.Timeout * 1000000000) ∧
      (raw.Timeout < 0 → raw.Timeout * 1000000000 < 0) := by
  have hk := stopPhaseCall_graceful raw hforce hne hlo hhi
  have hcond : ¬ (raw.Timeout = 0 ∨ raw.Force = true) := by simp [hforce, hne]
  have hsign : (0 < raw.Timeout → 0 < raw.Timeout * 1000000000) ∧
      (raw.Timeout < 0 → raw.Timeout * 1000000000 < 0) := by
    constructor <;> intro _ <;> omega
  rcases hact with ha | ha
  · have hsel := selectDo_stop c raw ha
    rw [if_neg hcond] at hsel
    refine ⟨doShutdown c raw, [],
      containerStatePut_created d mgr r h raw c _ hdec hload hsel, ?_, by simp, hsign⟩
    have hrun : doShutdown c raw op w = _ :=
      assignAndCheck_single c (Call.Shutdown (timeoutDuration raw.Timeout)) w
    rw [hrun, timeoutDuration_exact raw.Timeout hlo hhi]
  · have hcreated := containerStatePut_created d mgr r h raw c _ hdec hload
      (selectDo_restart c raw ha)
    cases hres : (c.method (stopPhaseCall raw) w.cstate).1 with
    | some e =>
      refine ⟨doRestart c raw, [], hcreated, ?_, by simp, hsign⟩
      rw [doRestart_eq, assignAndCheck_fail c _ w _ e hres, hk]
    | none =>
      refine ⟨doRestart c raw, [Call.Start], hcreated, ?_, by simp, hsign⟩
      rw [doRestart_eq, assignAndCheck_ok c _ w _ hres, assignAndCheck_single, hk]
      simp

/-- Witness for C10 (amended): a graceful `restart` with a timeout of 30 seconds. -/
theorem graceful_timeout_exact_witness :
    ∃ (task : Task RunState) (rest : List Call),
      (containerStatePut (sampleDaemon (scripted none none)) sampleManager
          (sampleRequest "restart" (some 30) none) sampleState).2.created =
        sampleState.created ++ [⟨operationClass.newOperationClassTask, [("containers", ["c1"])],
          none, some task, none, none⟩] ∧
      (task ⟨7⟩ sampleWorld).2.trace =
        sampleWorld.trace ++ Call.Shutdown (30 * 1000000000) :: rest ∧
      (∀ k ∈ rest, k = Call.Start) ∧
      ((0 : Int) < 30 → (0 : Int) < 30 * 1000000000) ∧
      ((30 : Int) < 0 → (30 : Int) * 1000000000 < 0) :=
  graceful_timeout_exact (sampleDaemon (scripted none none)) sampleManager
    (sampleRequest "restart" (some 30) none) sampleState ⟨"restart", 30, false⟩
    (scripted none none) ⟨7⟩ sampleWorld rfl rfl (Or.inr rfl) rfl (by decide) (by decide)
    (by decide)

end Lxd
